import Mathlib

/-!
Verification development for the multi-threaded web-page downloader
(`src/main.cpp`).  The C++ program is shallowly embedded: the per-task
retry loop `downloadPage` becomes a fuel-indexed recursive function
producing a trace of events, the URL loader `loadURLs` becomes a pure
function over the list of input lines, the orchestration in `main` /
`downloadAll` becomes `mainRun`, and the thread pool becomes a small
labelled transition system whose atomic steps are the program's
mutex-protected critical sections.
-/

namespace Downloader

/-- Environment oracle observed by a single `downloadPage` call.  Index
`k` is the value of `retries` at the start of the loop iteration:
`curlInitOk k` is whether `curl_easy_init()` succeeds there, `fileOpenOk k`
whether `fopen(filename, "w")` succeeds, `fetchOk k` whether
`curl_easy_perform` returns `CURLE_OK`, and `fetchBytes k` the bytes the
write callback delivered to the file during that attempt (possibly a
partial body when the attempt fails).  `strerror` is the
`curl_easy_strerror` text of the final error. -/
structure TaskEnv where
  curlInitOk : Nat → Bool
  fileOpenOk : Nat → Bool
  fetchOk : Nat → Bool
  fetchBytes : Nat → String
  strerror : String

/-- Observable events of one task execution, in program order.
String formatting of numbers into log lines is abstracted: a log event
carries the values the C++ code passes to `std::to_string`. -/
inductive Event where
  | curlInit (ok : Bool)
  | fopenW (name : String) (ok : Bool)
  | fetch (url : String) (attempt : Nat) (bytes : String)
  | logRetry (url : String) (count maxR : Nat)
  | sleepMs (ms : Nat)
  | logError (msg : String)
  | incCounter (newVal : Nat)
  | logDownloaded (current total : Nat) (percentage : ℚ) (url : String)
  deriving DecidableEq

/-- `const int MAX_RETRIES = 3;` in `downloadPage`. -/
def MAX_RETRIES : Nat := 3

/-- The `do { ... } while (retries < MAX_RETRIES)` loop of `downloadPage`.
`retries` is the loop counter at entry to the iteration; `fuel` bounds the
recursion (`downloadPage` calls it with `fuel = MAX_RETRIES`, which is
never exhausted since each recursive call has `retries + 1 < MAX_RETRIES`).
Returns the event trace together with `none` when the loop `return`s
early on a resource-acquisition failure, and `some b` with `b` the truth
of `res == CURLE_OK` when the loop exits normally. -/
def downloadGo (env : TaskEnv) (url filename : String) :
    Nat → Nat → List Event × Option Bool
  | _, 0 => ([], some false)
  | retries, fuel + 1 =>
    if env.curlInitOk retries then
      if env.fileOpenOk retries then
        let pre : List Event :=
          [Event.curlInit true, Event.fopenW filename true,
           Event.fetch url retries (env.fetchBytes retries)]
        if env.fetchOk retries then
          (pre, some true)
        else if retries + 1 < MAX_RETRIES then
          let r := downloadGo env url filename (retries + 1) fuel
          (pre ++ Event.logRetry url (retries + 1) MAX_RETRIES ::
            Event.sleepMs (100 * (retries + 1)) :: r.1, r.2)
        else
          (pre, some false)
      else
        ([Event.curlInit true, Event.fopenW filename false,
          Event.logError ("Error opening file: " ++ filename)], none)
    else
      ([Event.curlInit false,
        Event.logError ("Error initializing CURL for " ++ url)], none)

/-- Terminal state of the per-task retry state machine. -/
inductive TaskOutcome where
  | success
  | exhausted
  | aborted
  deriving DecidableEq

/-- Map the loop result of `downloadGo` to the terminal state. -/
def outcomeOf (r : Option Bool) : TaskOutcome :=
  match r with
  | some true => .success
  | some false => .exhausted
  | none => .aborted

/-- `downloadPage(url, filename, total_urls)`, given the value `counter`
of `g_completed_downloads` at the point the task performs its (single)
atomic increment.  Returns the event trace and the final counter value.
The success branch mirrors
`int current_completed = ++g_completed_downloads;` followed by the
percentage computation and the "Downloaded cur/total (pct%)" log line;
the percentage is modelled in `ℚ`. -/
def downloadPage (env : TaskEnv) (url filename : String)
    (total_urls counter : Nat) : List Event × Nat :=
  let r := downloadGo env url filename 0 MAX_RETRIES
  match r.2 with
  | none => (r.1, counter)
  | some false =>
      (r.1 ++ [Event.logError
        ("Download failed for " ++ url ++ ": " ++ env.strerror)], counter)
  | some true =>
      (r.1 ++ [Event.incCounter (counter + 1),
        Event.logDownloaded (counter + 1) total_urls
          (((counter + 1 : ℚ) / (total_urls : ℚ)) * 100) url], counter + 1)

/-- Attempt indices of the `curl_easy_perform` calls in a trace. -/
def attemptsOf (evs : List Event) : List Nat :=
  evs.filterMap fun e => match e with | .fetch _ k _ => some k | _ => none

/-- Backoff sleep durations (ms) in a trace, in order. -/
def sleepsOf (evs : List Event) : List Nat :=
  evs.filterMap fun e => match e with | .sleepMs n => some n | _ => none

/-- `(count, max)` pairs of the "Retrying url (count/max)" log lines. -/
def retryLogsOf (evs : List Event) : List (Nat × Nat) :=
  evs.filterMap fun e => match e with | .logRetry _ c m => some (c, m) | _ => none

/-- Error-severity log lines in a trace. -/
def errorsOf (evs : List Event) : List String :=
  evs.filterMap fun e => match e with | .logError m => some m | _ => none

/-- Values returned by the atomic increments in a trace. -/
def incsOf (evs : List Event) : List Nat :=
  evs.filterMap fun e => match e with | .incCounter v => some v | _ => none

/-- Number of passes through the retry-loop body (each pass starts with
the `curl_easy_init` call). -/
def itersOf (evs : List Event) : Nat :=
  (evs.filterMap fun e => match e with | .curlInit b => some b | _ => none).length

/-- Worker-count computation in `downloadAll`:
`std::min(std::max(4U, urls.size() / 5), std::thread::hardware_concurrency() * 2)`. -/
def NUM_THREADS (totalTasks hardwareConcurrency : Nat) : Nat :=
  min (max 4 (totalTasks / 5)) (hardwareConcurrency * 2)

/-- Modelled from the spec: `clamp(v, minimum = lo, maximum = hi)`,
i.e. `min(max(v, lo), hi)`. -/
def clampSpec (v lo hi : Nat) : Nat :=
  min (max v lo) hi

/-- Output file name for the task at 1-based position `pos`:
`"page" + std::to_string(i + 1) + ".html"`. -/
def destName (pos : Nat) : String :=
  "page" ++ Nat.repr pos ++ ".html"

/-- One `(source, destination)` task record as built in `downloadAll`. -/
structure DTask where
  url : String
  filename : String
  deriving DecidableEq

/-- The task list built by the enqueue loop of `downloadAll`: task `i`
downloads `urls[i]` into `destName (i + 1)`. -/
def buildTasks (urls : List String) : List DTask :=
  (List.range urls.length).map fun i =>
    { url := urls.getD i "", filename := destName (i + 1) }

/-- The whitespace set `" \t\n\r\f\v"` trimmed by `loadURLs`. -/
def isSpaceChar (c : Char) : Bool :=
  c = ' ' || c = '\t' || c = '\n' || c = '\r' ||
    c = Char.ofNat 12 || c = Char.ofNat 11

/-- Leading/trailing whitespace trimming done on each input line. -/
def trimWS (s : String) : String :=
  (((s.toList.dropWhile isSpaceChar).reverse.dropWhile isSpaceChar).reverse).asString

/-- Result of `loadURLs`: accepted URLs in order, plus info log lines. -/
structure LoadResult where
  urls : List String
  logs : List String
  deriving DecidableEq

/-- `loadURLs("urls.txt")`.  `fileOk` is whether the input file opened;
`lines` its lines; `valid` the URL-regex acceptance oracle (URL syntax
validation is an external collaborator).  Every line is trimmed, then
either accepted or skipped with an "Invalid URL skipped" notice. -/
def loadURLs (fileOk : Bool) (lines : List String) (valid : String → Bool) :
    LoadResult :=
  if fileOk then
    lines.foldl
      (fun acc line =>
        let url := trimWS line
        if valid url then { acc with urls := acc.urls ++ [url] }
        else { acc with logs := acc.logs ++ ["Invalid URL skipped: " ++ url] })
      ⟨[], []⟩
  else ⟨[], ["Error opening file: urls.txt"]⟩

/-- Inputs `main` observes: whether the log sink opens, whether
`urls.txt` opens, its lines, the validation oracle, the per-task
environments, and `std::thread::hardware_concurrency()`. -/
structure World where
  logOpenOk : Bool
  urlFileOk : Bool
  lines : List String
  valid : String → Bool
  envs : Nat → TaskEnv
  parallelism : Nat

/-- Observable outcome of a whole `main` run. -/
structure RunResult where
  exitCode : Nat
  logOpenErrorReported : Bool
  urls : List String
  poolStarted : Option Nat
  tasksRun : Nat

/-- The `main` function: open the log sink (on failure report to the
console and continue), load the URLs, exit with code 1 when none were
accepted, otherwise start the pool sized by `NUM_THREADS`, dispatch one
task per URL, and exit 0 after the pool joins — independently of how
many tasks succeeded. -/
def mainRun (w : World) : RunResult :=
  let urls := (loadURLs w.urlFileOk w.lines w.valid).urls
  if urls.isEmpty then
    { exitCode := 1, logOpenErrorReported := !w.logOpenOk, urls := urls,
      poolStarted := none, tasksRun := 0 }
  else
    { exitCode := 0, logOpenErrorReported := !w.logOpenOk, urls := urls,
      poolStarted := some (NUM_THREADS urls.length w.parallelism),
      tasksRun := urls.length }

/-- Pointwise file-system update. -/
def fsUpdate (fs : String → Option String) (n v : String) :
    String → Option String :=
  fun m => if m = n then some v else fs m

/-- Effect of a task trace on the file system.  `fopen(name, "w")`
truncates: it maps `name` to the empty content (creating it if absent)
and makes it the open destination; a fetch appends the bytes the write
callback delivered to the open destination. -/
def applyEvents :
    (String → Option String) → Option String → List Event →
      (String → Option String)
  | fs, _, [] => fs
  | fs, od, e :: es =>
    match e, od with
    | .fopenW n true, _ => applyEvents (fsUpdate fs n "") (some n) es
    | .fetch _ _ b, some n =>
        applyEvents (fsUpdate fs n (((fs n).getD "") ++ b)) od es
    | _, _ => applyEvents fs od es

/-- Destination file names opened by `fopen` in a trace. -/
def fopensOf (evs : List Event) : List String :=
  evs.filterMap fun e => match e with | .fopenW n _ => some n | _ => none

/-- All the inputs a single task's execution depends on. -/
structure TaskSpec where
  env : TaskEnv
  url : String
  filename : String

/-- Whether the task reaches the `Success` terminal state. -/
def succOf (t : TaskSpec) : Bool :=
  match (downloadGo t.env t.url t.filename 0 MAX_RETRIES).2 with
  | some true => true
  | _ => false

/-- Value of `g_completed_downloads` after a sequence of task
completions (`true` = the task reached `Success` and performed its
atomic increment), starting from 0. -/
def counterAfter (l : List Bool) : Nat :=
  l.foldl (fun c b => if b then c + 1 else c) 0

/-! ### Thread pool as a labelled transition system

The pool's shared state is mutated only inside `queue_mutex_`-protected
critical sections (enqueue; wait/pop; the stop flag write) plus the
per-worker task execution; each such critical section is one atomic
step of the relation below, which is what the mutex guarantees.  Tasks
are identified by `Nat` ids.  `pending` holds the tasks the orchestrator
has not yet enqueued (the `downloadAll` loop runs before the destructor,
so `stopStep` requires `pending = []`); `deqLog` records, in order, each
`(worker, task)` hand-off performed by the pop-under-lock. -/

/-- Status of one worker thread. -/
inductive WStatus where
  | idle
  | running (t : Nat)
  | done
  deriving DecidableEq

/-- Shared state of the `ThreadPool` together with the orchestrator's
not-yet-enqueued tasks and the dequeue history. -/
structure PoolState where
  pending : List Nat
  queue : List Nat
  stopped : Bool
  workers : List WStatus
  deqLog : List (Nat × Nat)
  deriving DecidableEq

/-- Atomic transitions of the pool.  `enqueue` is `ThreadPool::enqueue`
(rejected after stop, hence `stopped = false`); `dequeue` is the
front-then-pop hand-off done under the lock by an idle worker;
`finish` is a worker completing `task()`; `stopStep` is the destructor
setting `stop_` (after `downloadAll` finished enqueueing); `exitStep` is
a worker observing `stop_ && tasks_.empty()` and returning. -/
inductive PoolStep : PoolState → PoolState → Prop where
  | enqueue (s : PoolState) (t : Nat) (rest : List Nat)
      (hstop : s.stopped = false) (hp : s.pending = t :: rest) :
      PoolStep s ⟨rest, s.queue ++ [t], s.stopped, s.workers, s.deqLog⟩
  | dequeue (s : PoolState) (i t : Nat) (rest : List Nat)
      (hw : s.workers[i]? = some WStatus.idle) (hq : s.queue = t :: rest) :
      PoolStep s ⟨s.pending, rest, s.stopped,
        s.workers.set i (WStatus.running t), s.deqLog ++ [(i, t)]⟩
  | finish (s : PoolState) (i t : Nat)
      (hw : s.workers[i]? = some (WStatus.running t)) :
      PoolStep s ⟨s.pending, s.queue, s.stopped,
        s.workers.set i WStatus.idle, s.deqLog⟩
  | stopStep (s : PoolState) (hp : s.pending = []) :
      PoolStep s ⟨s.pending, s.queue, true, s.workers, s.deqLog⟩
  | exitStep (s : PoolState) (i : Nat)
      (hw : s.workers[i]? = some WStatus.idle)
      (hstop : s.stopped = true) (hq : s.queue = []) :
      PoolStep s ⟨s.pending, s.queue, s.stopped,
        s.workers.set i WStatus.done, s.deqLog⟩

/-- State at pool construction: `k` workers spawned idle, nothing
enqueued yet, the whole batch still pending with the orchestrator. -/
def poolInit (tasks : List Nat) (k : Nat) : PoolState :=
  ⟨tasks, [], false, List.replicate k WStatus.idle, []⟩

/-- Reachability under pool steps. -/
def Reaches : PoolState → PoolState → Prop :=
  Relation.ReflTransGen PoolStep

/-- The join barrier in the `ThreadPool` destructor has returned:
every worker thread has exited its loop. -/
def joined (s : PoolState) : Prop :=
  ∀ w ∈ s.workers, w = WStatus.done

/-- Inductive invariant of the pool system (for `1 ≤ k` workers). -/
structure PoolInv (tasks : List Nat) (k : Nat) (s : PoolState) : Prop where
  conserve : s.deqLog.map Prod.snd ++ s.queue ++ s.pending = tasks
  stopPending : s.stopped = true → s.pending = []
  doneStopped : (∃ w ∈ s.workers, w = WStatus.done) → s.stopped = true
  wlen : s.workers.length = k
  joinedDrained : joined s → s.queue = [] ∧ s.pending = []

/-! ### Decimal rendering, for file-name distinctness -/

/-- Numeric value of a decimal digit character. -/
def charVal (c : Char) : Nat :=
  c.toNat - 48

/-- Decimal digit list of `n`, most significant first (the list
`Nat.toDigits 10 n` produces). -/
def digitsRep (n : Nat) : List Char :=
  if h : n / 10 = 0 then [Nat.digitChar (n % 10)]
  else digitsRep (n / 10) ++ [Nat.digitChar (n % 10)]
decreasing_by
  exact Nat.div_lt_self (by omega) (by omega)

/-- Left inverse of decimal rendering. -/
def decodeDigits (l : List Char) : Nat :=
  l.foldl (fun a c => a * 10 + charVal c) 0

/-- Concrete environment: resources acquire, every fetch fails. -/
def allFailEnv : TaskEnv :=
  ⟨fun _ => true, fun _ => true, fun _ => false,
   fun k => "bytes" ++ Nat.repr k, "Timeout was reached"⟩

/-- Concrete environment: everything succeeds first try. -/
def allOkEnv : TaskEnv :=
  ⟨fun _ => true, fun _ => true, fun _ => true, fun _ => "<html></html>", ""⟩

/-- Concrete environment: the output file cannot be created. -/
def badOpenEnv : TaskEnv :=
  ⟨fun _ => true, fun _ => false, fun _ => true, fun _ => "", ""⟩

/-- Concrete world: the log sink fails to open, one valid URL, every
task fails all its attempts. -/
def cexWorld : World :=
  { logOpenOk := false, urlFileOk := true, lines := ["http://a.bc"],
    valid := fun _ => true, envs := fun _ => allFailEnv, parallelism := 1 }

/-- Concrete world: empty input list. -/
def emptyWorld : World :=
  { logOpenOk := true, urlFileOk := true, lines := [],
    valid := fun _ => true, envs := fun _ => allOkEnv, parallelism := 4 }

/-! ## Helper lemmas -/

theorem loadURLs_nil (fileOk : Bool) (valid : String → Bool) :
    (loadURLs fileOk [] valid).urls = [] := by
  cases fileOk <;> simp [loadURLs]

/-! ## Claims -/

/-- C7: for every batch size and every `hardware_concurrency` value `p`,
the worker count computed in `downloadAll` equals
`clamp(totalTasks / 5, minimum = 4, maximum = 2 × p)`, i.e.
`min(max(4, totalTasks / 5), 2 × p)` with integer division, and it is
this value (computed once from the URL count) that sizes the pool. -/
theorem worker_count_formula (totalTasks p : Nat) (w : World)
    (h : (mainRun w).urls ≠ []) :
    NUM_THREADS totalTasks p = clampSpec (totalTasks / 5) 4 (2 * p)
    ∧ NUM_THREADS totalTasks p = min (max 4 (totalTasks / 5)) (2 * p)
    ∧ (mainRun w).poolStarted =
        some (NUM_THREADS (mainRun w).urls.length w.parallelism) := by
  refine ⟨by simp [NUM_THREADS, clampSpec, Nat.mul_comm, Nat.max_comm],
    by simp [NUM_THREADS, Nat.mul_comm], ?_⟩
  by_cases he : (loadURLs w.urlFileOk w.lines w.valid).urls = []
  · exact absurd (by simp [mainRun, he]) h
  · simp [mainRun, he]

/-- Witness for C7 at `totalTasks = 23`, `p = 3`, in the concrete world
`cexWorld`. -/
theorem worker_count_formula_witness :
    NUM_THREADS 23 3 = clampSpec (23 / 5) 4 (2 * 3)
    ∧ NUM_THREADS 23 3 = min (max 4 (23 / 5)) (2 * 3)
    ∧ (mainRun cexWorld).poolStarted =
        some (NUM_THREADS (mainRun cexWorld).urls.length cexWorld.parallelism) :=
  worker_count_formula 23 3 cexWorld (by decide)

/-- C9: when zero URLs pass validation — in particular when the input
list is empty — the process exits with code 1, runs no task and starts
no worker pool. -/
theorem no_valid_urls_exit (w : World)
    (h : (loadURLs w.urlFileOk w.lines w.valid).urls = [] ∨ w.lines = []) :
    (mainRun w).exitCode = 1 ∧ (mainRun w).poolStarted = none
    ∧ (mainRun w).tasksRun = 0 := by
  have hu : (loadURLs w.urlFileOk w.lines w.valid).urls = [] := by
    rcases h with h | h
    · exact h
    · rw [h]; exact loadURLs_nil _ _
  simp [mainRun, hu]

/-- Witness for C9 at the empty input list. -/
theorem no_valid_urls_exit_witness :
    (mainRun emptyWorld).exitCode = 1 ∧ (mainRun emptyWorld).poolStarted = none
    ∧ (mainRun emptyWorld).tasksRun = 0 :=
  no_valid_urls_exit emptyWorld (Or.inr rfl)

/-- C1 counterexample: the claim "if the log sink cannot be opened at
startup, the process exits with a nonzero exit code before any task
runs" is false.  `openLogFile` only prints to `stderr` and returns;
`main` never consults the result: in `cexWorld` the log sink fails to
open, yet the task runs and the exit code is 0. -/
theorem logsink_nonzero_exit_false :
    ¬ ∀ w : World, w.logOpenOk = false →
        (mainRun w).exitCode ≠ 0 ∧ (mainRun w).tasksRun = 0 := by
  intro h
  exact (h cexWorld rfl).1 rfl

/-- C1 amended: if the log sink cannot be opened at startup, the error
is reported to the console and the run continues (all tasks still
dispatched); a run that completes its batch exits with code 0 even when
some (or all) tasks failed. -/
theorem completed_run_exit_code (w : World)
    (h : (loadURLs w.urlFileOk w.lines w.valid).urls ≠ []) :
    (mainRun w).exitCode = 0
    ∧ (mainRun w).tasksRun = (mainRun w).urls.length
    ∧ (w.logOpenOk = false → (mainRun w).logOpenErrorReported = true) := by
  simp [mainRun, h]

/-- Witness for C1: in `cexWorld` the log sink fails to open and every
task fails every attempt, yet the run exits 0 having dispatched its
task. -/
theorem completed_run_exit_code_witness :
    (mainRun cexWorld).exitCode = 0
    ∧ (mainRun cexWorld).tasksRun = (mainRun cexWorld).urls.length
    ∧ (cexWorld.logOpenOk = false →
        (mainRun cexWorld).logOpenErrorReported = true) :=
  completed_run_exit_code cexWorld (by decide)

theorem downloadGo_mem (env : TaskEnv) (u f : String) :
    ∀ fuel retries e, e ∈ (downloadGo env u f retries fuel).1 →
      (∀ v, e ≠ Event.incCounter v) ∧ (∀ n b, e = Event.fopenW n b → n = f) := by
  intro fuel
  induction fuel with
  | zero =>
    intro r e he
    simp [downloadGo] at he
  | succ m ih =>
    intro r e he
    by_cases h1 : env.curlInitOk r
    · by_cases h2 : env.fileOpenOk r
      · by_cases h3 : env.fetchOk r
        · simp [downloadGo, h1, h2, h3] at he
          rcases he with he | he | he <;> subst he <;> simp
        · by_cases h4 : r + 1 < MAX_RETRIES
          · simp [downloadGo, h1, h2, h3, h4] at he
            rcases he with he | he | he | he | he | he
            · subst he; simp
            · subst he; simp
            · subst he; simp
            · subst he; simp
            · subst he; simp
            · exact ih (r + 1) e he
          · simp [downloadGo, h1, h2, h3, h4] at he
            rcases he with he | he | he <;> subst he <;> simp
      · simp [downloadGo, h1, h2] at he
        rcases he with he | he | he <;> subst he <;> simp
    · simp [downloadGo, h1] at he
      rcases he with he | he <;> subst he <;> simp

/-- The retry loop itself performs no counter increment: the only
increment is in the success epilogue of `downloadPage`. -/
theorem downloadGo_incs (env : TaskEnv) (u f : String) (fuel retries : Nat) :
    incsOf (downloadGo env u f retries fuel).1 = [] := by
  rw [incsOf, List.filterMap_eq_nil_iff]
  intro e he
  have h := (downloadGo_mem env u f fuel retries e he).1
  cases e <;> first | rfl | exact absurd rfl (h _)

/-- Every event of a full task trace is either an event of the retry
loop or one of the appended epilogue events. -/
theorem downloadPage_mem (env : TaskEnv) (u f : String) (tot c : Nat)
    (e : Event) (he : e ∈ (downloadPage env u f tot c).1) :
    e ∈ (downloadGo env u f 0 MAX_RETRIES).1
    ∨ (∃ m, e = Event.logError m) ∨ (∃ v, e = Event.incCounter v)
    ∨ ∃ a b p q, e = Event.logDownloaded a b p q := by
  rw [downloadPage] at he
  rcases hr : (downloadGo env u f 0 MAX_RETRIES).2 with _ | b
  · rw [hr] at he
    exact Or.inl he
  · cases b
    · rw [hr] at he
      simp only [List.mem_append, List.mem_singleton] at he
      rcases he with he | he
      · exact Or.inl he
      · exact Or.inr (Or.inl ⟨_, he⟩)
    · rw [hr] at he
      simp only [List.mem_append, List.mem_cons, List.not_mem_nil,
        or_false] at he
      rcases he with he | he | he
      · exact Or.inl he
      · exact Or.inr (Or.inr (Or.inl ⟨_, he⟩))
      · exact Or.inr (Or.inr (Or.inr ⟨_, _, _, _, he⟩))

/-- Every `fopen` performed by a task execution names that task's own
destination file. -/
theorem downloadPage_fopens (env : TaskEnv) (u f : String)
    (tot c : Nat) (n : String)
    (hn : n ∈ fopensOf (downloadPage env u f tot c).1) : n = f := by
  rw [fopensOf, List.mem_filterMap] at hn
  obtain ⟨e, he, hg⟩ := hn
  have hm := downloadPage_mem env u f tot c e he
  cases e <;> simp at hg
  case fopenW name b =>
    rcases hm with hm | ⟨m, hm⟩ | ⟨v, hm⟩ | ⟨a, b2, p, q, hm⟩
    · have h2 := (downloadGo_mem env u f MAX_RETRIES 0 _ hm).2 name b rfl
      exact hg ▸ h2
    · exact absurd hm (by simp)
    · exact absurd hm (by simp)
    · exact absurd hm (by simp)

/-- Under acquisition success and universally failing fetches, the
three loop iterations produce exactly this trace. -/
theorem downloadGo_allFail (env : TaskEnv) (u f : String)
    (hc : ∀ k, env.curlInitOk k = true) (ho : ∀ k, env.fileOpenOk k = true)
    (hx : ∀ k, env.fetchOk k = false) :
    downloadGo env u f 0 MAX_RETRIES =
      ([Event.curlInit true, Event.fopenW f true,
        Event.fetch u 0 (env.fetchBytes 0),
        Event.logRetry u 1 3, Event.sleepMs 100,
        Event.curlInit true, Event.fopenW f true,
        Event.fetch u 1 (env.fetchBytes 1),
        Event.logRetry u 2 3, Event.sleepMs 200,
        Event.curlInit true, Event.fopenW f true,
        Event.fetch u 2 (env.fetchBytes 2)], some false) := by
  simp [downloadGo, MAX_RETRIES, hc, ho, hx]

/-- C2: a task whose fetch fails on every attempt performs exactly 3
attempts (`MAX_RETRIES`), terminates in the `Exhausted` state with a
final error log and no counter increment; before each re-attempt it
emits an info log naming the retry count, and the backoff delay slept
between consecutive attempts is `attempt × 100 ms` — linear in the
attempt number and strictly increasing. -/
theorem transient_failure_retries (env : TaskEnv) (u f : String)
    (tot c : Nat)
    (hc : ∀ k, env.curlInitOk k = true) (ho : ∀ k, env.fileOpenOk k = true)
    (hx : ∀ k, env.fetchOk k = false) :
    attemptsOf (downloadPage env u f tot c).1 = [0, 1, 2]
    ∧ (attemptsOf (downloadPage env u f tot c).1).length = MAX_RETRIES
    ∧ retryLogsOf (downloadPage env u f tot c).1 =
        [(1, MAX_RETRIES), (2, MAX_RETRIES)]
    ∧ sleepsOf (downloadPage env u f tot c).1 = [1 * 100, 2 * 100]
    ∧ List.Chain' (· < ·) (sleepsOf (downloadPage env u f tot c).1)
    ∧ outcomeOf (downloadGo env u f 0 MAX_RETRIES).2 = TaskOutcome.exhausted
    ∧ errorsOf (downloadPage env u f tot c).1 =
        ["Download failed for " ++ u ++ ": " ++ env.strerror]
    ∧ (downloadPage env u f tot c).2 = c := by
  have hgo := downloadGo_allFail env u f hc ho hx
  refine ⟨?_, ?_, ?_, ?_, ?_, ?_, ?_, ?_⟩ <;>
    simp only [downloadPage, hgo] <;>
    simp [attemptsOf, retryLogsOf, sleepsOf, errorsOf, outcomeOf,
      MAX_RETRIES, List.chain'_cons]

/-- Witness for C2 in the all-failing environment `allFailEnv`. -/
theorem transient_failure_retries_witness :
    attemptsOf (downloadPage allFailEnv "http://a.bc" "page1.html" 1 0).1 = [0, 1, 2]
    ∧ (attemptsOf (downloadPage allFailEnv "http://a.bc" "page1.html" 1 0).1).length
        = MAX_RETRIES
    ∧ retryLogsOf (downloadPage allFailEnv "http://a.bc" "page1.html" 1 0).1 =
        [(1, MAX_RETRIES), (2, MAX_RETRIES)]
    ∧ sleepsOf (downloadPage allFailEnv "http://a.bc" "page1.html" 1 0).1 =
        [1 * 100, 2 * 100]
    ∧ List.Chain' (· < ·)
        (sleepsOf (downloadPage allFailEnv "http://a.bc" "page1.html" 1 0).1)
    ∧ outcomeOf (downloadGo allFailEnv "http://a.bc" "page1.html" 0 MAX_RETRIES).2
        = TaskOutcome.exhausted
    ∧ errorsOf (downloadPage allFailEnv "http://a.bc" "page1.html" 1 0).1 =
        ["Download failed for " ++ "http://a.bc" ++ ": " ++ allFailEnv.strerror]
    ∧ (downloadPage allFailEnv "http://a.bc" "page1.html" 1 0).2 = 0 :=
  transient_failure_retries allFailEnv "http://a.bc" "page1.html" 1 0
    (fun _ => rfl) (fun _ => rfl) (fun _ => rfl)

/-- C5: a task whose transfer-handle or output-file acquisition fails
performs exactly one pass through the executor (no fetch, no retry log,
no backoff sleep), is aborted with a single error log entry, and does
not touch the progress counter. -/
theorem acquisition_failure_aborts (env : TaskEnv) (u f : String)
    (tot c : Nat)
    (h : env.curlInitOk 0 = false
      ∨ (env.curlInitOk 0 = true ∧ env.fileOpenOk 0 = false)) :
    itersOf (downloadPage env u f tot c).1 = 1
    ∧ attemptsOf (downloadPage env u f tot c).1 = []
    ∧ retryLogsOf (downloadPage env u f tot c).1 = []
    ∧ sleepsOf (downloadPage env u f tot c).1 = []
    ∧ (errorsOf (downloadPage env u f tot c).1).length = 1
    ∧ incsOf (downloadPage env u f tot c).1 = []
    ∧ (downloadPage env u f tot c).2 = c
    ∧ outcomeOf (downloadGo env u f 0 MAX_RETRIES).2 = TaskOutcome.aborted := by
  rcases h with h | ⟨h1, h2⟩
  · refine ⟨?_, ?_, ?_, ?_, ?_, ?_, ?_, ?_⟩ <;>
      simp [downloadPage, downloadGo, MAX_RETRIES, h, itersOf, attemptsOf,
        retryLogsOf, sleepsOf, errorsOf, incsOf, outcomeOf]
  · refine ⟨?_, ?_, ?_, ?_, ?_, ?_, ?_, ?_⟩ <;>
      simp [downloadPage, downloadGo, MAX_RETRIES, h1, h2, itersOf, attemptsOf,
        retryLogsOf, sleepsOf, errorsOf, incsOf, outcomeOf]

/-- Witness for C5 in the environment `badOpenEnv` where the output
file cannot be created. -/
theorem acquisition_failure_aborts_witness :
    itersOf (downloadPage badOpenEnv "http://a.bc" "page1.html" 1 0).1 = 1
    ∧ attemptsOf (downloadPage badOpenEnv "http://a.bc" "page1.html" 1 0).1 = []
    ∧ retryLogsOf (downloadPage badOpenEnv "http://a.bc" "page1.html" 1 0).1 = []
    ∧ sleepsOf (downloadPage badOpenEnv "http://a.bc" "page1.html" 1 0).1 = []
    ∧ (errorsOf (downloadPage badOpenEnv "http://a.bc" "page1.html" 1 0).1).length = 1
    ∧ incsOf (downloadPage badOpenEnv "http://a.bc" "page1.html" 1 0).1 = []
    ∧ (downloadPage badOpenEnv "http://a.bc" "page1.html" 1 0).2 = 0
    ∧ outcomeOf (downloadGo badOpenEnv "http://a.bc" "page1.html" 0 MAX_RETRIES).2
        = TaskOutcome.aborted :=
  acquisition_failure_aborts badOpenEnv "http://a.bc" "page1.html" 1 0
    (Or.inr ⟨rfl, rfl⟩)

/-- C6: on success the counter is bumped by a single atomic increment
(the unique `incCounter` event of the trace) whose returned value
`c + 1` is the final counter value, and the emitted info log entry
carries exactly that value, the total, and the percentage
`(c + 1) / total × 100` computed from that same value. -/
theorem success_increment_report (env : TaskEnv) (u f : String)
    (tot c : Nat)
    (h : (downloadGo env u f 0 MAX_RETRIES).2 = some true) :
    downloadPage env u f tot c =
      ((downloadGo env u f 0 MAX_RETRIES).1 ++
        [Event.incCounter (c + 1),
         Event.logDownloaded (c + 1) tot (((c + 1 : ℚ) / (tot : ℚ)) * 100) u],
       c + 1)
    ∧ incsOf (downloadPage env u f tot c).1 = [c + 1]
    ∧ (downloadPage env u f tot c).2 = c + 1 := by
  have hmain : downloadPage env u f tot c =
      ((downloadGo env u f 0 MAX_RETRIES).1 ++
        [Event.incCounter (c + 1),
         Event.logDownloaded (c + 1) tot (((c + 1 : ℚ) / (tot : ℚ)) * 100) u],
       c + 1) := by
    simp only [downloadPage, h]
  refine ⟨hmain, ?_, by rw [hmain]⟩
  rw [hmain]
  have hnil := downloadGo_incs env u f MAX_RETRIES 0
  rw [incsOf] at hnil ⊢
  simp [List.filterMap_append, hnil]

/-- Witness for C6 in the all-succeeding environment `allOkEnv`, with
4 prior completions out of 10 tasks. -/
theorem success_increment_report_witness :
    downloadPage allOkEnv "http://a.bc" "page1.html" 10 4 =
      ((downloadGo allOkEnv "http://a.bc" "page1.html" 0 MAX_RETRIES).1 ++
        [Event.incCounter (4 + 1),
         Event.logDownloaded (4 + 1) 10 (((4 + 1 : ℚ) / (10 : ℚ)) * 100)
           "http://a.bc"],
       4 + 1)
    ∧ incsOf (downloadPage allOkEnv "http://a.bc" "page1.html" 10 4).1 = [4 + 1]
    ∧ (downloadPage allOkEnv "http://a.bc" "page1.html" 10 4).2 = 4 + 1 :=
  success_increment_report allOkEnv "http://a.bc" "page1.html" 10 4 rfl

theorem counterAfter_go (l : List Bool) :
    ∀ c, l.foldl (fun c b => if b then c + 1 else c) c = c + l.count true := by
  induction l with
  | nil => intro c; simp
  | cons b t ih =>
    intro c
    cases b
    all_goals
      simp [List.count_cons, ih]
      try omega

theorem counterAfter_eq_count (l : List Bool) :
    counterAfter l = l.count true := by
  simpa [counterAfter] using counterAfter_go l 0

theorem count_true_map {α : Type} (f : α → Bool) (l : List α) :
    (l.map f).count true = (l.filter f).length := by
  induction l with
  | nil => rfl
  | cons a t ih => by_cases h : f a <;> simp [h, List.count_cons, ih]

/-- A task's trace performs the atomic increment exactly once when it
reaches `Success`, and never otherwise. -/
theorem downloadPage_incs (t : TaskSpec) (tot c : Nat) :
    incsOf (downloadPage t.env t.url t.filename tot c).1 =
      if succOf t then [c + 1] else [] := by
  have hnil := downloadGo_incs t.env t.url t.filename MAX_RETRIES 0
  rw [incsOf] at hnil
  rcases hr : (downloadGo t.env t.url t.filename 0 MAX_RETRIES).2 with _ | b
  · simp only [downloadPage, hr, succOf, incsOf]
    simp [hnil]
  · cases b
    all_goals
      simp only [downloadPage, hr, succOf, incsOf]
      simp [List.filterMap_append, hnil]

/-- C3: for every batch of `N` tasks and every completion order `done`
(a permutation of the batch — completions may interleave arbitrarily),
the progress counter starts at 0, is monotonically non-decreasing, stays
at most `N` over every prefix of the completion sequence, ends equal to
the number of tasks that reached `Success`, and each task increments it
exactly once when it succeeds and never when it is exhausted or aborts
on resource acquisition. -/
theorem progress_counter_invariants (tasks done : List TaskSpec)
    (hperm : done.Perm tasks) :
    counterAfter [] = 0
    ∧ (∀ p s : List Bool, counterAfter p ≤ counterAfter (p ++ s))
    ∧ (∀ p s : List Bool, p ++ s = done.map succOf →
        counterAfter p ≤ tasks.length)
    ∧ counterAfter (done.map succOf) = (tasks.filter succOf).length
    ∧ (∀ t : TaskSpec, ∀ tot c,
        incsOf (downloadPage t.env t.url t.filename tot c).1 =
          if succOf t then [c + 1] else []) := by
  refine ⟨rfl, ?_, ?_, ?_, fun t tot c => downloadPage_incs t tot c⟩
  · intro p s
    rw [counterAfter_eq_count, counterAfter_eq_count, List.count_append]
    omega
  · intro p s hps
    have h1 : p.length ≤ (done.map succOf).length := by
      rw [← hps]; simp
    have h2 := List.count_le_length (a := true) (l := p)
    have h3 : done.length = tasks.length := hperm.length_eq
    rw [counterAfter_eq_count]
    simp at h1
    omega
  · rw [counterAfter_eq_count, count_true_map]
    exact (hperm.filter succOf).length_eq

/-- Witness for C3: a singleton batch whose task succeeds, completed in
the only possible order. -/
theorem progress_counter_invariants_witness :
    counterAfter [] = 0
    ∧ (∀ p s : List Bool, counterAfter p ≤ counterAfter (p ++ s))
    ∧ (∀ p s : List Bool,
        p ++ s = [TaskSpec.mk allOkEnv "http://a.bc" "page1.html"].map succOf →
        counterAfter p ≤ [TaskSpec.mk allOkEnv "http://a.bc" "page1.html"].length)
    ∧ counterAfter ([TaskSpec.mk allOkEnv "http://a.bc" "page1.html"].map succOf)
        = ([TaskSpec.mk allOkEnv "http://a.bc" "page1.html"].filter succOf).length
    ∧ (∀ t : TaskSpec, ∀ tot c,
        incsOf (downloadPage t.env t.url t.filename tot c).1 =
          if succOf t then [c + 1] else []) :=
  progress_counter_invariants
    [TaskSpec.mk allOkEnv "http://a.bc" "page1.html"]
    [TaskSpec.mk allOkEnv "http://a.bc" "page1.html"]
    (List.Perm.refl _)

/-- C10: a task that exhausts its retries still opens its destination
with truncating `fopen(..., "w")` before each of its three fetches (the
trace is listed explicitly), and afterwards the destination file exists
and holds exactly the partial bytes written by the final attempt — it is
not left unchanged on error, whatever its prior content (or absence). -/
theorem exhausted_task_overwrites (env : TaskEnv) (u f : String)
    (tot c : Nat) (fs : String → Option String)
    (hc : ∀ k, env.curlInitOk k = true) (ho : ∀ k, env.fileOpenOk k = true)
    (hx : ∀ k, env.fetchOk k = false) :
    applyEvents fs none (downloadPage env u f tot c).1 f
      = some (env.fetchBytes 2)
    ∧ (downloadPage env u f tot c).1 =
        [Event.curlInit true, Event.fopenW f true,
         Event.fetch u 0 (env.fetchBytes 0),
         Event.logRetry u 1 3, Event.sleepMs 100,
         Event.curlInit true, Event.fopenW f true,
         Event.fetch u 1 (env.fetchBytes 1),
         Event.logRetry u 2 3, Event.sleepMs 200,
         Event.curlInit true, Event.fopenW f true,
         Event.fetch u 2 (env.fetchBytes 2),
         Event.logError ("Download failed for " ++ u ++ ": " ++ env.strerror)]
    ∧ outcomeOf (downloadGo env u f 0 MAX_RETRIES).2 = TaskOutcome.exhausted := by
  have hgo := downloadGo_allFail env u f hc ho hx
  have htr : (downloadPage env u f tot c).1 =
      [Event.curlInit true, Event.fopenW f true,
       Event.fetch u 0 (env.fetchBytes 0),
       Event.logRetry u 1 3, Event.sleepMs 100,
       Event.curlInit true, Event.fopenW f true,
       Event.fetch u 1 (env.fetchBytes 1),
       Event.logRetry u 2 3, Event.sleepMs 200,
       Event.curlInit true, Event.fopenW f true,
       Event.fetch u 2 (env.fetchBytes 2),
       Event.logError ("Download failed for " ++ u ++ ": " ++ env.strerror)] := by
    simp only [downloadPage, hgo]
    rfl
  refine ⟨?_, htr, by simp [outcomeOf, hgo]⟩
  rw [htr]
  simp [applyEvents, fsUpdate]

/-- Witness for C10: the all-failing environment, a file system where
the destination is initially absent. -/
theorem exhausted_task_overwrites_witness :
    applyEvents (fun _ => none) none
        (downloadPage allFailEnv "http://a.bc" "page1.html" 1 0).1 "page1.html"
      = some (allFailEnv.fetchBytes 2)
    ∧ (downloadPage allFailEnv "http://a.bc" "page1.html" 1 0).1 =
        [Event.curlInit true, Event.fopenW "page1.html" true,
         Event.fetch "http://a.bc" 0 (allFailEnv.fetchBytes 0),
         Event.logRetry "http://a.bc" 1 3, Event.sleepMs 100,
         Event.curlInit true, Event.fopenW "page1.html" true,
         Event.fetch "http://a.bc" 1 (allFailEnv.fetchBytes 1),
         Event.logRetry "http://a.bc" 2 3, Event.sleepMs 200,
         Event.curlInit true, Event.fopenW "page1.html" true,
         Event.fetch "http://a.bc" 2 (allFailEnv.fetchBytes 2),
         Event.logError ("Download failed for " ++ "http://a.bc" ++ ": " ++
           allFailEnv.strerror)]
    ∧ outcomeOf
        (downloadGo allFailEnv "http://a.bc" "page1.html" 0 MAX_RETRIES).2
        = TaskOutcome.exhausted :=
  exhausted_task_overwrites allFailEnv "http://a.bc" "page1.html" 1 0
    (fun _ => none) (fun _ => rfl) (fun _ => rfl) (fun _ => rfl)

/-! ### Injectivity of the position-based file naming -/

theorem toDigitsCore_eq_digitsRep :
    ∀ (fuel n : Nat), n < fuel → ∀ acc : List Char,
      Nat.toDigitsCore 10 fuel n acc = digitsRep n ++ acc := by
  intro fuel
  induction fuel with
  | zero => intro n h acc; omega
  | succ m ih =>
    intro n h acc
    rw [Nat.toDigitsCore, digitsRep]
    by_cases h0 : n / 10 = 0
    · simp [h0]
    · have hn : n / 10 < m := by
        have h1 : n / 10 < n := Nat.div_lt_self (by omega) (by omega)
        omega
      simp only [h0, if_false, dif_neg]
      rw [ih (n / 10) hn]
      simp

theorem repr_eq_digitsRep (n : Nat) :
    Nat.repr n = (digitsRep n).asString := by
  rw [Nat.repr, Nat.toDigits, toDigitsCore_eq_digitsRep (n + 1) n (by omega)]
  simp

theorem charVal_digitChar (d : Nat) (h : d < 10) :
    charVal (Nat.digitChar d) = d := by
  interval_cases d <;> rfl

theorem decodeDigits_append (l : List Char) (c : Char) :
    decodeDigits (l ++ [c]) = decodeDigits l * 10 + charVal c := by
  rw [decodeDigits, decodeDigits, List.foldl_append]
  rfl

theorem decodeDigits_digitsRep (n : Nat) :
    decodeDigits (digitsRep n) = n := by
  induction n using Nat.strong_induction_on with
  | _ n ih =>
    rw [digitsRep]
    by_cases h0 : n / 10 = 0
    · simp only [dif_pos h0]
      have h1 : decodeDigits [Nat.digitChar (n % 10)] =
          0 * 10 + charVal (Nat.digitChar (n % 10)) := rfl
      rw [h1, charVal_digitChar _ (Nat.mod_lt _ (by omega))]
      omega
    · simp only [dif_neg h0]
      rw [decodeDigits_append,
        ih (n / 10) (Nat.div_lt_self (by omega) (by omega)),
        charVal_digitChar _ (Nat.mod_lt _ (by omega))]
      omega

theorem digitsRep_inj (m n : Nat) (h : digitsRep m = digitsRep n) : m = n := by
  have h2 := congrArg decodeDigits h
  rwa [decodeDigits_digitsRep, decodeDigits_digitsRep] at h2

theorem natRepr_inj (m n : Nat) (h : Nat.repr m = Nat.repr n) : m = n := by
  rw [repr_eq_digitsRep, repr_eq_digitsRep] at h
  have hd := congrArg String.data h
  simp only [List.asString] at hd
  exact digitsRep_inj _ _ hd

/-- Distinct 1-based positions get distinct output file names. -/
theorem destName_injective : Function.Injective destName := by
  intro p q h
  rw [destName, destName] at h
  have hd := congrArg String.data h
  simp only [String.data_append] at hd
  have h1 := List.append_cancel_right hd
  have h2 := List.append_cancel_left h1
  exact natRepr_inj p q (String.ext h2)

theorem buildTasks_filenames (urls : List String) :
    (buildTasks urls).map DTask.filename =
      (List.range urls.length).map (fun i => destName (i + 1)) := by
  simp [buildTasks]

/-- C8: task `i` of `downloadAll` pairs the `i`-th accepted URL with the
file named by its 1-based position, `page(i+1).html`; the naming map is
injective so the batch's file names are pairwise distinct (one file per
accepted URL); a task only ever opens its own destination; and the
truncating open `fopen(name, "w")` maps the destination to empty content,
overwriting any existing file. -/
theorem output_file_per_url (urls : List String) (i : Nat)
    (h : i < urls.length) :
    (buildTasks urls).length = urls.length
    ∧ (buildTasks urls).getD i ⟨"", ""⟩ =
        ⟨urls.getD i "", destName (i + 1)⟩
    ∧ Function.Injective destName
    ∧ ((buildTasks urls).map DTask.filename).Nodup
    ∧ (∀ env u f tot c n,
        n ∈ fopensOf (downloadPage env u f tot c).1 → n = f)
    ∧ (∀ fs od n rest, applyEvents fs od (Event.fopenW n true :: rest) =
        applyEvents (fsUpdate fs n "") (some n) rest)
    ∧ (∀ fs n, fsUpdate fs n "" n = some "") := by
  have hlen : (buildTasks urls).length = urls.length := by simp [buildTasks]
  refine ⟨hlen, ?_, destName_injective, ?_, ?_, ?_, ?_⟩
  · rw [List.getD_eq_getElem (buildTasks urls) (⟨"", ""⟩ : DTask)
      (show i < (buildTasks urls).length by omega)]
    simp [buildTasks]
  · rw [buildTasks_filenames]
    exact List.Nodup.map
      (fun a b hab => by
        have h2 := destName_injective hab
        omega)
      (List.nodup_range _)
  · exact fun env u f tot c n hn => downloadPage_fopens env u f tot c n hn
  · intro fs od n rest
    rfl
  · intro fs n
    simp [fsUpdate]

/-- Witness for C8: a two-URL batch, at position `i = 1`. -/
theorem output_file_per_url_witness :
    (buildTasks ["http://a.bc", "http://b.cd"]).length =
        (["http://a.bc", "http://b.cd"] : List String).length
    ∧ (buildTasks ["http://a.bc", "http://b.cd"]).getD 1 ⟨"", ""⟩ =
        ⟨(["http://a.bc", "http://b.cd"] : List String).getD 1 "",
          destName (1 + 1)⟩
    ∧ Function.Injective destName
    ∧ ((buildTasks ["http://a.bc", "http://b.cd"]).map DTask.filename).Nodup
    ∧ (∀ env u f tot c n,
        n ∈ fopensOf (downloadPage env u f tot c).1 → n = f)
    ∧ (∀ fs od n rest, applyEvents fs od (Event.fopenW n true :: rest) =
        applyEvents (fsUpdate fs n "") (some n) rest)
    ∧ (∀ fs n, fsUpdate fs n "" n = some "") :=
  output_file_per_url ["http://a.bc", "http://b.cd"] 1 (by decide)

/-! ### Pool invariant proofs -/

theorem poolInv_init (tasks : List Nat) (k : Nat) (hk : 1 ≤ k) :
    PoolInv tasks k (poolInit tasks k) := by
  refine ⟨by simp [poolInit], ?_, ?_, by simp [poolInit], ?_⟩
  · intro h2
    simp [poolInit] at h2
  · intro ⟨w, hw, hd⟩
    simp [poolInit, List.mem_replicate] at hw
    rw [hw.2] at hd
    cases hd
  · intro hj
    have hmem : WStatus.idle ∈ (poolInit tasks k).workers := by
      simp [poolInit, List.mem_replicate]
      omega
    have h2 := hj _ hmem
    cases h2

theorem poolInv_step {tasks : List Nat} {k : Nat} (hk : 1 ≤ k)
    {s s' : PoolState} (hs : PoolStep s s') (hinv : PoolInv tasks k s) :
    PoolInv tasks k s' := by
  obtain ⟨hcons, hstopP, hdone, hwlen, hjd⟩ := hinv
  cases hs with
  | enqueue t rest hstop hp =>
    refine ⟨?_, ?_, ?_, hwlen, ?_⟩
    · rw [hp] at hcons
      rw [← hcons]
      simp
    · intro h2
      rw [hstop] at h2
      cases h2
    · intro hex
      rw [hdone hex] at hstop
      cases hstop
    · intro hj
      have hne : s.workers ≠ ([] : List WStatus) := by
        intro hnil
        rw [hnil] at hwlen
        simp at hwlen
        omega
      obtain ⟨w, hw⟩ := List.exists_mem_of_ne_nil s.workers hne
      have hwd := hj w hw
      rw [hdone ⟨w, hw, hwd⟩] at hstop
      cases hstop
  | dequeue i t rest hw hq =>
    have hi : i < s.workers.length := by
      rcases List.getElem?_eq_some.mp hw with ⟨h2, _⟩
      exact h2
    refine ⟨?_, hstopP, ?_, by simpa using hwlen, ?_⟩
    · rw [hq] at hcons
      rw [← hcons]
      simp
    · intro ⟨w, hw2, hd⟩
      rcases List.mem_or_eq_of_mem_set hw2 with h2 | h2
      · exact hdone ⟨w, h2, hd⟩
      · rw [h2] at hd
        cases hd
    · intro hj
      have hmem : WStatus.running t ∈ s.workers.set i (WStatus.running t) :=
        List.mem_iff_getElem?.mpr ⟨i, List.getElem?_set_self hi⟩
      have h4 := hj _ hmem
      cases h4
  | finish i t hw =>
    refine ⟨hcons, hstopP, ?_, by simpa using hwlen, ?_⟩
    · intro ⟨w, hw2, hd⟩
      rcases List.mem_or_eq_of_mem_set hw2 with h2 | h2
      · exact hdone ⟨w, h2, hd⟩
      · rw [h2] at hd
        cases hd
    · intro hj
      have hi : i < s.workers.length := by
        rcases List.getElem?_eq_some.mp hw with ⟨h2, _⟩
        exact h2
      have hmem : WStatus.idle ∈ s.workers.set i WStatus.idle :=
        List.mem_iff_getElem?.mpr ⟨i, List.getElem?_set_self hi⟩
      have h4 := hj _ hmem
      cases h4
  | stopStep hp =>
    exact ⟨hcons, fun _ => hp, fun _ => rfl, hwlen, fun hj => hjd hj⟩
  | exitStep i hw hstop hq =>
    exact ⟨hcons, fun _ => hstopP hstop, fun _ => hstop,
      by simpa using hwlen, fun _ => ⟨hq, hstopP hstop⟩⟩

theorem poolInv_reaches {tasks : List Nat} {k : Nat} (hk : 1 ≤ k)
    {s : PoolState} (h : Reaches (poolInit tasks k) s) :
    PoolInv tasks k s := by
  induction h with
  | refl => exact poolInv_init tasks k hk
  | tail hr hstep ih => exact poolInv_step hk hstep ih

/-- C4: in every run of a pool with at least one worker, once the join
barrier has returned (`joined`), the dequeue log lists exactly the
enqueued batch, in FIFO order: `N` dequeue operations in total, each
task handed to exactly one worker exactly once (no duplication, no
loss), and no worker is still executing a task. -/
theorem pool_exactly_once_join (tasks : List Nat) (k : Nat)
    (s : PoolState) (hk : 1 ≤ k) (hr : Reaches (poolInit tasks k) s)
    (hj : joined s) :
    s.deqLog.map Prod.snd = tasks
    ∧ s.deqLog.length = tasks.length
    ∧ (tasks.Nodup → ∀ t ∈ tasks, (s.deqLog.map Prod.snd).count t = 1)
    ∧ (∀ w ∈ s.workers, ∀ t, w ≠ WStatus.running t) := by
  have hinv := poolInv_reaches hk hr
  obtain ⟨hq, hp⟩ := hinv.joinedDrained hj
  have hlog : s.deqLog.map Prod.snd = tasks := by
    have h2 := hinv.conserve
    rw [hq, hp] at h2
    simpa using h2
  refine ⟨hlog, ?_, ?_, ?_⟩
  · rw [← hlog]
    simp
  · intro hnd t ht
    rw [hlog]
    exact List.count_eq_one_of_mem hnd ht
  · intro w hw t
    rw [hj w hw]
    simp

/-- Witness for C4: a single task `5`, one worker; the full run
enqueue → dequeue → finish → stop → exit reaches the joined state. -/
theorem pool_exactly_once_join_witness :
    (PoolState.mk [] [] true [WStatus.done] [(0, 5)]).deqLog.map Prod.snd = [5]
    ∧ (PoolState.mk [] [] true [WStatus.done] [(0, 5)]).deqLog.length =
        ([5] : List Nat).length
    ∧ (([5] : List Nat).Nodup → ∀ t ∈ ([5] : List Nat),
        ((PoolState.mk [] [] true [WStatus.done] [(0, 5)]).deqLog.map
          Prod.snd).count t = 1)
    ∧ (∀ w ∈ (PoolState.mk [] [] true [WStatus.done] [(0, 5)]).workers,
        ∀ t, w ≠ WStatus.running t) := by
  have step1 : PoolStep (poolInit [5] 1)
      (PoolState.mk [] [5] false [WStatus.idle] []) :=
    PoolStep.enqueue (poolInit [5] 1) 5 [] rfl rfl
  have step2 : PoolStep (PoolState.mk [] [5] false [WStatus.idle] [])
      (PoolState.mk [] [] false [WStatus.running 5] [(0, 5)]) :=
    PoolStep.dequeue (PoolState.mk [] [5] false [WStatus.idle] []) 0 5 [] rfl rfl
  have step3 : PoolStep (PoolState.mk [] [] false [WStatus.running 5] [(0, 5)])
      (PoolState.mk [] [] false [WStatus.idle] [(0, 5)]) :=
    PoolStep.finish (PoolState.mk [] [] false [WStatus.running 5] [(0, 5)]) 0 5 rfl
  have step4 : PoolStep (PoolState.mk [] [] false [WStatus.idle] [(0, 5)])
      (PoolState.mk [] [] true [WStatus.idle] [(0, 5)]) :=
    PoolStep.stopStep (PoolState.mk [] [] false [WStatus.idle] [(0, 5)]) rfl
  have step5 : PoolStep (PoolState.mk [] [] true [WStatus.idle] [(0, 5)])
      (PoolState.mk [] [] true [WStatus.done] [(0, 5)]) :=
    PoolStep.exitStep (PoolState.mk [] [] true [WStatus.idle] [(0, 5)]) 0
      rfl rfl rfl
  have hchain : Reaches (poolInit [5] 1)
      (PoolState.mk [] [] true [WStatus.done] [(0, 5)]) :=
    Relation.ReflTransGen.head step1
      (Relation.ReflTransGen.head step2
        (Relation.ReflTransGen.head step3
          (Relation.ReflTransGen.head step4
            (Relation.ReflTransGen.head step5 Relation.ReflTransGen.refl))))
  exact pool_exactly_once_join [5] 1
    (PoolState.mk [] [] true [WStatus.done] [(0, 5)]) (by omega) hchain
    (by intro w hw; simpa using hw)

end Downloader
